import Mathlib

/-!
Shallow embedding of `src/data_cleaning.py` (MovieLens-Analysis).

The script is a four-stage CSV filtering pipeline:
  build_filtered_ratings → load_ids_from_filtered_ratings →
  build_links_filtered / build_tags_filtered / build_movies_filtered,
validated by `ensure_file_with_columns` and sanitized by `sanitize_ascii`.

Modelling conventions:
  * The module-level configuration constants (MAX_USERS, MAX_MOVIES,
    MAX_TAGS_PER_MOVIE, MAX_RATINGS_PER_USER, ASCII_ONLY) are gathered in a
    `Config` record; a `None` Python cap is `Option.none`.
  * A CSV file on disk is `Option (CsvSource ρ)`: `none` means the file does
    not exist; `CsvSource.fieldnames = none` models `csv.DictReader.fieldnames`
    being `None` on an empty file (the code then takes `fieldnames or []`).
  * Row field values are strings, as `csv.DictReader` yields them; a field
    that may be absent from a short row (and is fed to `sanitize_ascii`,
    which checks `if s is None`) is `Option String`.
  * Python `int(...)` on an id field is `pyInt` below, the nonnegative
    decimal case of `int()` (the ids in these files are nonnegative decimal
    integers); a value that fails to parse aborts the run, which we model
    with `Except`: an uncaught `ValueError` and a `sys.exit(1)` both
    terminate the process with a failure signal, embedded as `Except.error`.
  * `defaultdict(int)` counters are functions `Nat → Nat` starting at
    `fun _ => 0`.
  * Python's `set` of ints is a duplicate-free `List Nat` grown with
    `List.insert`; a Python set is unordered, so any property of the model
    that depends on the order of one of these lists is only meaningful up
    to permutation, and the theorems below are stated accordingly.
    `sorted(movie_ids)` is `List.insertionSort (· ≤ ·) movie_ids` and
    `len` is `List.length` (the lists are duplicate-free by construction).
-/

structure Config where
  maxUsers : Nat
  maxMovies : Option Nat
  maxTagsPerMovie : Option Nat
  maxRatingsPerUser : Option Nat
  asciiOnly : Bool
deriving Repr, DecidableEq

/-- The configuration constants at the top of `data_cleaning.py`. -/
def defaultConfig : Config :=
  { maxUsers := 50, maxMovies := some 400, maxTagsPerMovie := some 30,
    maxRatingsPerUser := some 200, asciiOnly := true }

/-- A row of `ratings.csv` / `filtered_ratings.csv`, fields as read by
`csv.DictReader`. -/
structure RatingRow where
  userId : String
  movieId : String
  rating : String
  timestamp : String
deriving Repr, DecidableEq

/-- A row of `links.csv`. -/
structure LinkRow where
  movieId : String
  imdbId : String
  tmdbId : String
deriving Repr, DecidableEq

/-- A row of `tags.csv`; the `tag` field is passed to `sanitize_ascii`,
which accepts `None`, so it is optional. -/
structure TagRow where
  userId : String
  movieId : String
  tag : Option String
  timestamp : String
deriving Repr, DecidableEq

/-- A row of `movies.csv`; `title` and `genres` are passed to
`sanitize_ascii`, so they are optional. -/
structure MovieRow where
  movieId : String
  title : Option String
  genres : Option String
deriving Repr, DecidableEq

/-- A row of `movies_filtered.csv`: the script re-emits `movieId` as its
parsed integer and writes sanitized `title` and `genres` strings. -/
structure MovieOutRow where
  movieId : Nat
  title : String
  genres : String
deriving Repr, DecidableEq

/-- An existing CSV file: `fieldnames` is the header as `DictReader` reports
it (`none` for an empty file), `rows` its data rows. -/
structure CsvSource (ρ : Type) where
  fieldnames : Option (List String)
  rows : List ρ
deriving Repr

/-- The three fatal conditions of the script: a missing source file and a
header missing required columns (both reported by `ensure_file_with_columns`
before `sys.exit(1)`), and an id field on which `int(...)` raises
`ValueError`. Each constructor carries exactly the data the corresponding
Python diagnostic interpolates. -/
inductive PipelineError where
  | missingSource (name parent : String)
  | missingColumns (name : String) (missing found : List String)
  | malformedField (value : String)
deriving Repr, DecidableEq

/-- Python list repr of a list of strings, `[\x27a\x27, \x27b\x27]`, as
printed by the f-strings in `ensure_file_with_columns`. -/
def pyListRepr (l : List String) : String :=
  "[" ++ String.intercalate ", " (l.map (fun s => "\x27" ++ s ++ "\x27")) ++ "]"

/-- The user-visible diagnostic of each fatal condition: the two
`ensure_file_with_columns` messages are the exact `print(f"...")` texts of
`data_cleaning.py`; the `malformedField` text is CPython\x27s `ValueError`
message for `int()` on a non-integer literal, which carries only the value. -/
def diagnostic : PipelineError → String
  | .missingSource name parent =>
      "ERROR: Expected file \x27" ++ name ++ "\x27 in \x27" ++ parent ++
      "\x27, but it was not found."
  | .missingColumns name missing found =>
      "ERROR: File \x27" ++ name ++ "\x27 is missing required columns: " ++
      pyListRepr missing ++ ". Found columns: " ++ pyListRepr found
  | .malformedField value =>
      "invalid literal for int() with base 10: \x27" ++ value ++ "\x27"

/-- Python `int(s)` restricted to the shapes that occur in these CSV id
fields: a nonempty string of decimal digits parses to its value, anything
else raises `ValueError` (`none`). -/
def pyInt (s : String) : Option Nat :=
  if s.data ≠ [] ∧ s.data.all Char.isDigit
  then some (s.data.foldl (fun n c => 10 * n + (c.toNat - 48)) 0)
  else none

/-- `ensure_file_with_columns(path, required_columns)`: exit if the file is
absent; otherwise read `reader.fieldnames or []` and exit if any required
column is missing from it. -/
def ensure_file_with_columns {ρ : Type} (name parent : String)
    (src : Option (CsvSource ρ)) (required_columns : List String) :
    Except PipelineError Unit :=
  match src with
  | none => .error (.missingSource name parent)
  | some f =>
    let columns := f.fieldnames.getD []
    let missing := required_columns.filter (fun c => ¬ (c ∈ columns))
    if missing = [] then .ok ()
    else .error (.missingColumns name missing columns)

/-- `sanitize_ascii(s)`: `None` becomes `""`; with `ASCII_ONLY` off the
string is returned unchanged; with it on, `s.encode("ascii","ignore")`
keeps exactly the characters with code point below 128, in order. -/
def sanitize_ascii (cfg : Config) (s : Option String) : String :=
  match s with
  | none => ""
  | some s =>
    if cfg.asciiOnly then ⟨s.data.filter (fun c => c.toNat < 128)⟩ else s

/-- One step of the `defaultdict(int)` increment `counts[k] += 1`. -/
def bump (counts : Nat → Nat) (k : Nat) : Nat → Nat :=
  fun x => if x = k then counts x + 1 else counts x

/-- The row loop of `build_filtered_ratings`: parse `userId` (`ValueError`
aborts); `break` as soon as it exceeds `MAX_USERS`; increment the per-user
counter; if the cap is enabled and the counter now exceeds it, `continue`;
otherwise write the row (all four fields verbatim). Returns the rows
written and the final counter state. -/
def filterRatingsRows (cfg : Config) :
    List RatingRow → (Nat → Nat) →
    Except PipelineError (List RatingRow × (Nat → Nat))
  | [], counts => .ok ([], counts)
  | r :: rs, counts =>
    match pyInt r.userId with
    | none => .error (.malformedField r.userId)
    | some user_id =>
      if user_id > cfg.maxUsers then .ok ([], counts)
      else
        let counts' := bump counts user_id
        match cfg.maxRatingsPerUser with
        | some cap =>
          if counts' user_id > cap then filterRatingsRows cfg rs counts'
          else (filterRatingsRows cfg rs counts').map (fun p => (r :: p.1, p.2))
        | none => (filterRatingsRows cfg rs counts').map (fun p => (r :: p.1, p.2))

/-- `build_filtered_ratings(base_dir)`: validate `ratings.csv`, then run the
row loop starting from an empty counter. -/
def build_filtered_ratings (cfg : Config) (parent : String)
    (ratings : Option (CsvSource RatingRow)) :
    Except PipelineError (List RatingRow × (Nat → Nat)) :=
  match ensure_file_with_columns "ratings.csv" parent ratings
      ["userId", "movieId", "rating", "timestamp"] with
  | .error e => .error e
  | .ok _ => filterRatingsRows cfg ((ratings.map CsvSource.rows).getD []) (fun _ => 0)

/-- The row loop of `load_ids_from_filtered_ratings`: add `int(userId)` and
`int(movieId)` of every row to the two sets (`userId` parsed first, as in
the source). -/
def loadIdsRows :
    List RatingRow → List Nat → List Nat →
    Except PipelineError (List Nat × List Nat)
  | [], user_ids, movie_ids => .ok (user_ids, movie_ids)
  | r :: rs, user_ids, movie_ids =>
    match pyInt r.userId with
    | none => .error (.malformedField r.userId)
    | some u =>
      match pyInt r.movieId with
      | none => .error (.malformedField r.movieId)
      | some m => loadIdsRows rs (user_ids.insert u) (movie_ids.insert m)

/-- The optional hard cap at the end of `load_ids_from_filtered_ratings`:
`if MAX_MOVIES is not None and len(movie_ids) > MAX_MOVIES:
movie_ids = set(sorted(movie_ids)[:MAX_MOVIES])`. -/
def capMovieIds (cfg : Config) (movie_ids : List Nat) : List Nat :=
  match cfg.maxMovies with
  | none => movie_ids
  | some cap =>
    if movie_ids.length > cap then (List.insertionSort (· ≤ ·) movie_ids).take cap
    else movie_ids

/-- `load_ids_from_filtered_ratings(base_dir)`: validate
`filtered_ratings.csv`, accumulate both id sets, then apply the movie cap. -/
def load_ids_from_filtered_ratings (cfg : Config) (parent : String)
    (filtered : Option (CsvSource RatingRow)) :
    Except PipelineError (List Nat × List Nat) :=
  match ensure_file_with_columns "filtered_ratings.csv" parent filtered
      ["userId", "movieId", "rating", "timestamp"] with
  | .error e => .error e
  | .ok _ =>
    match loadIdsRows ((filtered.map CsvSource.rows).getD []) [] [] with
    | .error e => .error e
    | .ok p => .ok (p.1, capMovieIds cfg p.2)

/-- The row loop of `build_links_filtered`: keep a row verbatim iff its
parsed `movieId` is in `movie_ids`. -/
def filterLinksRows (movie_ids : List Nat) :
    List LinkRow → Except PipelineError (List LinkRow)
  | [] => .ok []
  | r :: rs =>
    match pyInt r.movieId with
    | none => .error (.malformedField r.movieId)
    | some movie_id =>
      if movie_id ∈ movie_ids then (filterLinksRows movie_ids rs).map (r :: ·)
      else filterLinksRows movie_ids rs

/-- `build_links_filtered(base_dir, movie_ids)`. -/
def build_links_filtered (parent : String) (links : Option (CsvSource LinkRow))
    (movie_ids : List Nat) : Except PipelineError (List LinkRow) :=
  match ensure_file_with_columns "links.csv" parent links
      ["movieId", "imdbId", "tmdbId"] with
  | .error e => .error e
  | .ok _ => filterLinksRows movie_ids ((links.map CsvSource.rows).getD [])

/-- The row loop of `build_tags_filtered`: a row whose `movieId` is outside
the allowed set is dropped before the counter is touched; otherwise the
per-movie counter is incremented and, if the cap is enabled and exceeded,
the row is dropped; an emitted row has its `tag` field sanitized. -/
def filterTagsRows (cfg : Config) (allowed_movie_ids : List Nat) :
    List TagRow → (Nat → Nat) →
    Except PipelineError (List TagRow × (Nat → Nat))
  | [], counts => .ok ([], counts)
  | r :: rs, counts =>
    match pyInt r.movieId with
    | none => .error (.malformedField r.movieId)
    | some movie_id =>
      if movie_id ∉ allowed_movie_ids then filterTagsRows cfg allowed_movie_ids rs counts
      else
        let counts' := bump counts movie_id
        let emitted : TagRow :=
          { userId := r.userId, movieId := r.movieId,
            tag := some (sanitize_ascii cfg r.tag), timestamp := r.timestamp }
        match cfg.maxTagsPerMovie with
        | some cap =>
          if counts' movie_id > cap then filterTagsRows cfg allowed_movie_ids rs counts'
          else (filterTagsRows cfg allowed_movie_ids rs counts').map
            (fun p => (emitted :: p.1, p.2))
        | none => (filterTagsRows cfg allowed_movie_ids rs counts').map
            (fun p => (emitted :: p.1, p.2))

/-- `build_tags_filtered(base_dir, allowed_movie_ids)`. -/
def build_tags_filtered (cfg : Config) (parent : String)
    (tags : Option (CsvSource TagRow)) (allowed_movie_ids : List Nat) :
    Except PipelineError (List TagRow × (Nat → Nat)) :=
  match ensure_file_with_columns "tags.csv" parent tags
      ["userId", "movieId", "tag", "timestamp"] with
  | .error e => .error e
  | .ok _ =>
    filterTagsRows cfg allowed_movie_ids ((tags.map CsvSource.rows).getD [])
      (fun _ => 0)

/-- The row loop of `build_movies_filtered`: keep a row iff its parsed
`movieId` is allowed, re-emitting the id as an integer and sanitizing
`title` and `genres`. -/
def filterMoviesRows (cfg : Config) (allowed_movie_ids : List Nat) :
    List MovieRow → Except PipelineError (List MovieOutRow)
  | [] => .ok []
  | r :: rs =>
    match pyInt r.movieId with
    | none => .error (.malformedField r.movieId)
    | some movie_id =>
      if movie_id ∈ allowed_movie_ids then
        (filterMoviesRows cfg allowed_movie_ids rs).map
          (({ movieId := movie_id, title := sanitize_ascii cfg r.title,
              genres := sanitize_ascii cfg r.genres } : MovieOutRow) :: ·)
      else filterMoviesRows cfg allowed_movie_ids rs

/-- `build_movies_filtered(base_dir, allowed_movie_ids)`. -/
def build_movies_filtered (cfg : Config) (parent : String)
    (movies : Option (CsvSource MovieRow)) (allowed_movie_ids : List Nat) :
    Except PipelineError (List MovieOutRow) :=
  match ensure_file_with_columns "movies.csv" parent movies
      ["movieId", "title", "genres"] with
  | .error e => .error e
  | .ok _ => filterMoviesRows cfg allowed_movie_ids ((movies.map CsvSource.rows).getD [])

/-- The four on-disk inputs of one run. -/
structure Sources where
  ratings : Option (CsvSource RatingRow)
  links : Option (CsvSource LinkRow)
  tags : Option (CsvSource TagRow)
  movies : Option (CsvSource MovieRow)

/-- The output artifacts a run has produced so far; a stage that never ran
(or aborted) has produced nothing. -/
structure Artifacts where
  filteredRatings : Option (List RatingRow)
  linksFiltered : Option (List LinkRow)
  tagsFiltered : Option (List TagRow)
  moviesFiltered : Option (List MovieOutRow)
deriving Repr, DecidableEq

/-- `main()`: run the stages in order, stopping at the first fatal error;
returns the artifacts produced before the abort and the error, if any.
`load_ids_from_filtered_ratings` re-reads `filtered_ratings.csv`, which the
previous stage just wrote with exactly the four required header columns. -/
def runMain (cfg : Config) (parent : String) (srcs : Sources) :
    Artifacts × Option PipelineError :=
  match build_filtered_ratings cfg parent srcs.ratings with
  | .error e => (⟨none, none, none, none⟩, some e)
  | .ok (fr, _) =>
    let written : CsvSource RatingRow :=
      { fieldnames := some ["userId", "movieId", "rating", "timestamp"],
        rows := fr }
    match load_ids_from_filtered_ratings cfg parent (some written) with
    | .error e => (⟨some fr, none, none, none⟩, some e)
    | .ok (_, movie_ids) =>
      match build_links_filtered parent srcs.links movie_ids with
      | .error e => (⟨some fr, none, none, none⟩, some e)
      | .ok lf =>
        match build_tags_filtered cfg parent srcs.tags movie_ids with
        | .error e => (⟨some fr, some lf, none, none⟩, some e)
        | .ok (tf, _) =>
          match build_movies_filtered cfg parent srcs.movies movie_ids with
          | .error e => (⟨some fr, some lf, some tf, none⟩, some e)
          | .ok mf => (⟨some fr, some lf, some tf, some mf⟩, none)

/-- `startsWith needle hay`: `needle` is an initial segment of `hay`. -/
def startsWith : List Char → List Char → Bool
  | [], _ => true
  | _ :: _, [] => false
  | a :: as, b :: bs => a == b && startsWith as bs

/-- `listContains needle hay`: `needle` occurs contiguously inside `hay`. -/
def listContains (needle : List Char) : List Char → Bool
  | [] => startsWith needle []
  | c :: cs => startsWith needle (c :: cs) || listContains needle cs

/-- `strContains hay needle`: `needle` is a substring of `hay`; used to state
what a diagnostic message mentions. -/
def strContains (hay needle : String) : Bool :=
  listContains needle.data hay.data

/-- The loop guard of `build_filtered_ratings` on one row: its `userId`
parses and is at most `MAX_USERS`. On a successful run the loop processes
exactly the longest prefix of rows satisfying this guard (a parse failure
aborts the run instead, and the first over-limit row triggers `break`). -/
def withinLimit (cfg : Config) (r : RatingRow) : Bool :=
  match pyInt r.userId with
  | some v => decide (v ≤ cfg.maxUsers)
  | none => false

theorem startsWith_self_append (n b : List Char) : startsWith n (n ++ b) = true := by
  induction n with
  | nil => rfl
  | cons c cs ih => simp [startsWith, ih]

theorem listContains_of_starts {n hay : List Char} (h : startsWith n hay = true) :
    listContains n hay = true := by
  cases hay with
  | nil => cases n with
    | nil => rfl
    | cons c cs => simp [startsWith] at h
  | cons c cs => simp [listContains, h]

theorem listContains_cons {n cs : List Char} (c : Char)
    (h : listContains n cs = true) : listContains n (c :: cs) = true := by
  simp [listContains, h]

theorem listContains_append_self (a n b : List Char) :
    listContains n (a ++ (n ++ b)) = true := by
  induction a with
  | nil => exact listContains_of_starts (startsWith_self_append n b)
  | cons x xs ih => exact listContains_cons x ih

theorem strContains_append_self (a n b : String) :
    strContains (a ++ n ++ b) n = true := by
  have : (a ++ n ++ b).data = a.data ++ (n.data ++ b.data) := by
    rw [String.data_append, String.data_append, List.append_assoc]
  rw [strContains, this]
  exact listContains_append_self a.data n.data b.data

theorem capMovieIds_length_le (cfg : Config) (cap : Nat) (l : List Nat)
    (h : cfg.maxMovies = some cap) : (capMovieIds cfg l).length ≤ cap := by
  unfold capMovieIds
  rw [h]
  by_cases hl : l.length > cap
  · simp only [hl, if_true, List.length_take]
    exact Nat.min_le_left _ _
  · simp only [hl, if_false]
    omega

/-- C5: `sanitize_ascii` is total on text: with sanitization enabled the
output is exactly the subsequence of 7-bit ASCII characters of the input in
their original relative order, with `None` mapped to `""`; with it disabled
every string is returned unchanged and `None` still maps to `""`. -/
theorem sanitize_ascii_total_spec (cfg : Config) (s : String) :
    (cfg.asciiOnly = true →
      (sanitize_ascii cfg (some s)).data = s.data.filter (fun c => c.toNat < 128) ∧
      List.Sublist (sanitize_ascii cfg (some s)).data s.data) ∧
    (cfg.asciiOnly = false → sanitize_ascii cfg (some s) = s) ∧
    sanitize_ascii cfg none = "" := by
  refine ⟨fun h => ⟨?_, ?_⟩, fun h => ?_, rfl⟩
  · simp [sanitize_ascii, h]
  · simp only [sanitize_ascii, h, if_true]
    exact List.filter_sublist s.data
  · simp [sanitize_ascii, h]

theorem sanitize_ascii_total_spec_check :
    (sanitize_ascii defaultConfig (some "café")).data =
      "café".data.filter (fun c => c.toNat < 128) ∧
    sanitize_ascii defaultConfig none = "" ∧
    sanitize_ascii defaultConfig (some "café") = "caf" :=
  ⟨((sanitize_ascii_total_spec defaultConfig "café").1 rfl).1,
   (sanitize_ascii_total_spec defaultConfig "café").2.2, by decide⟩

/-- C8: `sanitize_ascii` is idempotent in both sanitization modes (stated
over its whole domain, so also for an absent input). -/
theorem sanitize_ascii_idempotent (cfg : Config) (s : Option String) :
    sanitize_ascii cfg (some (sanitize_ascii cfg s)) = sanitize_ascii cfg s := by
  cases s with
  | none =>
    cases h : cfg.asciiOnly <;>
      simp [sanitize_ascii, h]
  | some s =>
    cases h : cfg.asciiOnly with
    | false => simp [sanitize_ascii, h]
    | true =>
      simp only [sanitize_ascii, h, if_true]
      apply String.ext
      simp [List.filter_filter]

/-- C10: a source that exists but is empty (`DictReader.fieldnames` is
`None`, so the column list is `[]`) is reported by `ensure_file_with_columns`
as a missing-columns failure listing every required column as missing and an
empty found-columns list — a different constructor from the missing-source
failure — and the stage returns the fatal error. -/
theorem ensure_empty_file_missing_columns {ρ : Type} (name parent : String)
    (rows : List ρ) (required : List String) (hne : required ≠ []) :
    ensure_file_with_columns name parent (some ⟨none, rows⟩) required =
      .error (.missingColumns name required []) ∧
    ∀ n p, (PipelineError.missingColumns name required [] : PipelineError) ≠
      .missingSource n p := by
  have hfilter : required.filter (fun c => ¬ (c ∈ ([] : List String))) = required :=
    List.filter_eq_self.mpr (by intro a _; simp)
  refine ⟨?_, by intro n p h; cases h⟩
  simp [ensure_file_with_columns, hfilter, hne]

theorem ensure_empty_file_missing_columns_check :
    ensure_file_with_columns "ratings.csv" "/base"
        (some ⟨none, ([] : List RatingRow)⟩)
        ["userId", "movieId", "rating", "timestamp"] =
      .error (.missingColumns "ratings.csv"
        ["userId", "movieId", "rating", "timestamp"] []) :=
  (ensure_empty_file_missing_columns "ratings.csv" "/base" [] _ (by simp)).1

/-- C4: when the movie cap is set, the movie-id list returned by
`load_ids_from_filtered_ratings` never has more than `cap` elements. -/
theorem load_ids_length_le_cap (cfg : Config) (parent : String)
    (filtered : Option (CsvSource RatingRow)) (cap : Nat) (us ms : List Nat)
    (hcap : cfg.maxMovies = some cap)
    (hok : load_ids_from_filtered_ratings cfg parent filtered = .ok (us, ms)) :
    ms.length ≤ cap := by
  rw [load_ids_from_filtered_ratings] at hok
  cases h1 : ensure_file_with_columns "filtered_ratings.csv" parent filtered
      ["userId", "movieId", "rating", "timestamp"] with
  | error e => rw [h1] at hok; exact Except.noConfusion hok
  | ok u =>
    rw [h1] at hok
    cases h2 : loadIdsRows ((filtered.map CsvSource.rows).getD []) [] [] with
    | error e => rw [h2] at hok; exact Except.noConfusion hok
    | ok p =>
      rw [h2] at hok
      have hms : capMovieIds cfg p.2 = ms := by
        have := hok
        simp only [Except.ok.injEq, Prod.mk.injEq] at this
        exact this.2
      rw [← hms]
      exact capMovieIds_length_le cfg cap p.2 hcap

theorem load_ids_length_le_cap_check :
    load_ids_from_filtered_ratings
        ⟨50, some 2, some 30, some 200, true⟩ "/base"
        (some ⟨some ["userId", "movieId", "rating", "timestamp"],
          [⟨"1", "5", "4.0", "100"⟩, ⟨"1", "3", "4.0", "101"⟩,
           ⟨"1", "9", "4.0", "102"⟩, ⟨"2", "1", "4.0", "103"⟩]⟩) =
      .ok ([2, 1], [1, 3]) ∧
    ([1, 3] : List Nat).length ≤ 2 :=
  ⟨rfl,
   load_ids_length_le_cap ⟨50, some 2, some 30, some 200, true⟩ "/base"
     (some ⟨some ["userId", "movieId", "rating", "timestamp"],
       [⟨"1", "5", "4.0", "100"⟩, ⟨"1", "3", "4.0", "101"⟩,
        ⟨"1", "9", "4.0", "102"⟩, ⟨"2", "1", "4.0", "103"⟩]⟩) 2 [2, 1] [1, 3]
     rfl rfl⟩

theorem filterLinksRows_mem (allowed : List Nat) (rows out : List LinkRow)
    (h : filterLinksRows allowed rows = .ok out) :
    ∀ r ∈ out, ∃ m, pyInt r.movieId = some m ∧ m ∈ allowed := by
  induction rows generalizing out with
  | nil =>
    intro r hr
    simp only [filterLinksRows, Except.ok.injEq] at h
    subst h
    cases hr
  | cons r rs ih =>
    intro x hx
    rw [filterLinksRows] at h
    cases hm : pyInt r.movieId with
    | none => rw [hm] at h; exact Except.noConfusion h
    | some m =>
      rw [hm] at h
      by_cases hmem : m ∈ allowed
      · simp only [hmem, if_true] at h
        cases h2 : filterLinksRows allowed rs with
        | error e => rw [h2] at h; exact Except.noConfusion h
        | ok out' =>
          rw [h2] at h
          simp only [Except.map, Except.ok.injEq] at h
          subst h
          cases hx with
          | head => exact ⟨m, hm, hmem⟩
          | tail _ hx => exact ih out' h2 x hx
      · simp only [hmem, if_false] at h
        exact ih out h x hx

theorem filterTagsRows_mem (cfg : Config) (allowed : List Nat)
    (rows out : List TagRow) (counts counts' : Nat → Nat)
    (h : filterTagsRows cfg allowed rows counts = .ok (out, counts')) :
    ∀ r ∈ out, ∃ m, pyInt r.movieId = some m ∧ m ∈ allowed := by
  induction rows generalizing out counts counts' with
  | nil =>
    intro r hr
    simp only [filterTagsRows, Except.ok.injEq, Prod.mk.injEq] at h
    rw [← h.1] at hr
    cases hr
  | cons r rs ih =>
    intro x hx
    rw [filterTagsRows] at h
    cases hm : pyInt r.movieId with
    | none => rw [hm] at h; exact Except.noConfusion h
    | some m =>
      rw [hm] at h
      by_cases hmem : m ∉ allowed
      · simp only [hmem, if_true] at h
        exact ih out counts counts' h x hx
      · simp only [hmem, if_false] at h
        push_neg at hmem
        cases hcap : cfg.maxTagsPerMovie with
        | none =>
          rw [hcap] at h
          cases h2 : filterTagsRows cfg allowed rs (bump counts m) with
          | error e => rw [h2] at h; exact Except.noConfusion h
          | ok p =>
            rw [h2] at h
            simp only [Except.map, Except.ok.injEq, Prod.mk.injEq] at h
            rw [← h.1] at hx
            cases hx with
            | head => exact ⟨m, hm, hmem⟩
            | tail _ hx => exact ih p.1 (bump counts m) p.2 (by rw [h2]) x hx
        | some cap =>
          rw [hcap] at h
          by_cases hgt : bump counts m m > cap
          · simp only [hgt, if_true] at h
            exact ih out (bump counts m) counts' h x hx
          · simp only [hgt, if_false] at h
            cases h2 : filterTagsRows cfg allowed rs (bump counts m) with
            | error e => rw [h2] at h; exact Except.noConfusion h
            | ok p =>
              rw [h2] at h
              simp only [Except.map, Except.ok.injEq, Prod.mk.injEq] at h
              rw [← h.1] at hx
              cases hx with
              | head => exact ⟨m, hm, hmem⟩
              | tail _ hx => exact ih p.1 (bump counts m) p.2 (by rw [h2]) x hx

theorem filterMoviesRows_mem (cfg : Config) (allowed : List Nat)
    (rows : List MovieRow) (out : List MovieOutRow)
    (h : filterMoviesRows cfg allowed rows = .ok out) :
    ∀ r ∈ out, r.movieId ∈ allowed := by
  induction rows generalizing out with
  | nil =>
    intro r hr
    simp only [filterMoviesRows, Except.ok.injEq] at h
    subst h
    cases hr
  | cons r rs ih =>
    intro x hx
    rw [filterMoviesRows] at h
    cases hm : pyInt r.movieId with
    | none => rw [hm] at h; exact Except.noConfusion h
    | some m =>
      rw [hm] at h
      by_cases hmem : m ∈ allowed
      · simp only [hmem, if_true] at h
        cases h2 : filterMoviesRows cfg allowed rs with
        | error e => rw [h2] at h; exact Except.noConfusion h
        | ok out' =>
          rw [h2] at h
          simp only [Except.map, Except.ok.injEq] at h
          subst h
          cases hx with
          | head => exact hmem
          | tail _ hx => exact ih out' h2 x hx
      · simp only [hmem, if_false] at h
        exact ih out h x hx

/-- C1: for every configuration, allowed-id set and input, every row in the
output of `build_links_filtered`, `build_tags_filtered` and
`build_movies_filtered` has a movieId belonging to the allowed-movie-id
set the stage was given. -/
theorem filtered_outputs_in_allowed (cfg : Config) (parent : String)
    (allowed : List Nat) :
    (∀ links out, build_links_filtered parent links allowed = .ok out →
      ∀ r ∈ out, ∃ m, pyInt r.movieId = some m ∧ m ∈ allowed) ∧
    (∀ tags out counts, build_tags_filtered cfg parent tags allowed = .ok (out, counts) →
      ∀ r ∈ out, ∃ m, pyInt r.movieId = some m ∧ m ∈ allowed) ∧
    (∀ movies out, build_movies_filtered cfg parent movies allowed = .ok out →
      ∀ r ∈ out, r.movieId ∈ allowed) := by
  refine ⟨fun links out h => ?_, fun tags out counts h => ?_, fun movies out h => ?_⟩
  · rw [build_links_filtered] at h
    cases h1 : ensure_file_with_columns "links.csv" parent links
        ["movieId", "imdbId", "tmdbId"] with
    | error e => rw [h1] at h; exact Except.noConfusion h
    | ok u => rw [h1] at h; exact filterLinksRows_mem allowed _ out h
  · rw [build_tags_filtered] at h
    cases h1 : ensure_file_with_columns "tags.csv" parent tags
        ["userId", "movieId", "tag", "timestamp"] with
    | error e => rw [h1] at h; exact Except.noConfusion h
    | ok u => rw [h1] at h; exact filterTagsRows_mem cfg allowed _ out _ counts h
  · rw [build_movies_filtered] at h
    cases h1 : ensure_file_with_columns "movies.csv" parent movies
        ["movieId", "title", "genres"] with
    | error e => rw [h1] at h; exact Except.noConfusion h
    | ok u => rw [h1] at h; exact filterMoviesRows_mem cfg allowed _ out h

theorem filtered_outputs_in_allowed_check :
    build_movies_filtered defaultConfig "/base"
        (some ⟨some ["movieId", "title", "genres"],
          [⟨"1", some "Toy Story", some "Animation"⟩,
           ⟨"7", some "Sabrina", some "Comedy"⟩]⟩) [1, 3] =
      .ok [⟨1, "Toy Story", "Animation"⟩] ∧
    (⟨1, "Toy Story", "Animation"⟩ : MovieOutRow).movieId ∈ [1, 3] :=
  ⟨rfl,
   (filtered_outputs_in_allowed defaultConfig "/base" [1, 3]).2.2
     (some ⟨some ["movieId", "title", "genres"],
       [⟨"1", some "Toy Story", some "Animation"⟩,
        ⟨"7", some "Sabrina", some "Comedy"⟩]⟩)
     [⟨1, "Toy Story", "Animation"⟩] rfl ⟨1, "Toy Story", "Animation"⟩
     (List.mem_singleton.mpr rfl)⟩

theorem filterRatingsRows_countP_le (cfg : Config) (cap : Nat)
    (hcap : cfg.maxRatingsPerUser = some cap) (u : Nat) (rows : List RatingRow) :
    ∀ (counts : Nat → Nat) (out : List RatingRow) (counts' : Nat → Nat),
    filterRatingsRows cfg rows counts = .ok (out, counts') →
    out.countP (fun r => pyInt r.userId == some u) + counts u ≤
      max (counts u) cap := by
  induction rows with
  | nil =>
    intro counts out counts' h
    simp only [filterRatingsRows, Except.ok.injEq, Prod.mk.injEq] at h
    rw [← h.1]
    simp [Nat.le_max_left]
  | cons r rs ih =>
    intro counts out counts' h
    rw [filterRatingsRows] at h
    cases hm : pyInt r.userId with
    | none => rw [hm] at h; exact Except.noConfusion h
    | some v =>
      rw [hm] at h
      by_cases hv : v > cfg.maxUsers
      · simp only [hv, if_true, Except.ok.injEq, Prod.mk.injEq] at h
        rw [← h.1]
        simp [Nat.le_max_left]
      · simp only [hv, if_false, hcap] at h
        have hbv : bump counts v v = counts v + 1 := by simp [bump]
        by_cases hskip : bump counts v v > cap
        · have hrec := ih (bump counts v) out counts'
            (by simpa only [hskip, if_true] using h)
          by_cases huv : u = v
          · subst huv
            rw [hbv] at hrec
            rw [hbv] at hskip
            omega
          · have hb : bump counts v u = counts u := by simp [bump, huv]
            rw [hb] at hrec
            exact hrec
        · simp only [hskip, if_false] at h
          cases h2 : filterRatingsRows cfg rs (bump counts v) with
          | error e => rw [h2] at h; exact Except.noConfusion h
          | ok p =>
            rw [h2] at h
            simp only [Except.map, Except.ok.injEq, Prod.mk.injEq] at h
            rw [← h.1]
            have hrec := ih (bump counts v) p.1 p.2 h2
            rw [List.countP_cons]
            simp only [hm]
            by_cases huv : u = v
            · subst huv
              rw [hbv] at hrec
              rw [hbv] at hskip
              simp only [beq_self_eq_true, if_true]
              omega
            · have hb : bump counts v u = counts u := by simp [bump, huv]
              rw [hb] at hrec
              have : ((some v == some u) : Bool) = false := by
                simp [Ne.symm huv]
              rw [this]
              simpa using hrec

theorem filterTagsRows_countP_le (cfg : Config) (cap : Nat) (allowed : List Nat)
    (hcap : cfg.maxTagsPerMovie = some cap) (m : Nat) (rows : List TagRow) :
    ∀ (counts : Nat → Nat) (out : List TagRow) (counts' : Nat → Nat),
    filterTagsRows cfg allowed rows counts = .ok (out, counts') →
    out.countP (fun r => pyInt r.movieId == some m) + counts m ≤
      max (counts m) cap := by
  induction rows with
  | nil =>
    intro counts out counts' h
    simp only [filterTagsRows, Except.ok.injEq, Prod.mk.injEq] at h
    rw [← h.1]
    simp [Nat.le_max_left]
  | cons r rs ih =>
    intro counts out counts' h
    rw [filterTagsRows] at h
    cases hm : pyInt r.movieId with
    | none => rw [hm] at h; exact Except.noConfusion h
    | some v =>
      rw [hm] at h
      by_cases hmem : v ∉ allowed
      · simp only [hmem, if_true] at h
        exact ih counts out counts' h
      · simp only [hmem, if_false, hcap] at h
        have hbv : bump counts v v = counts v + 1 := by simp [bump]
        by_cases hskip : bump counts v v > cap
        · have hrec := ih (bump counts v) out counts'
            (by simpa only [hskip, if_true] using h)
          by_cases huv : m = v
          · subst huv
            rw [hbv] at hrec
            rw [hbv] at hskip
            omega
          · have hb : bump counts v m = counts m := by simp [bump, huv]
            rw [hb] at hrec
            exact hrec
        · simp only [hskip, if_false] at h
          cases h2 : filterTagsRows cfg allowed rs (bump counts v) with
          | error e => rw [h2] at h; exact Except.noConfusion h
          | ok p =>
            rw [h2] at h
            simp only [Except.map, Except.ok.injEq, Prod.mk.injEq] at h
            rw [← h.1]
            have hrec := ih (bump counts v) p.1 p.2 h2
            rw [List.countP_cons]
            simp only [hm]
            by_cases huv : m = v
            · subst huv
              rw [hbv] at hrec
              rw [hbv] at hskip
              simp only [beq_self_eq_true, if_true]
              omega
            · have hb : bump counts v m = counts m := by simp [bump, huv]
              rw [hb] at hrec
              have : ((some v == some m) : Bool) = false := by
                simp [Ne.symm huv]
              rw [this]
              simpa using hrec

/-- C3: with the per-user cap enabled, no user has more than
`maxRatingsPerUser` rows in the filtered ratings output; with the per-movie
cap enabled, no movie has more than `maxTagsPerMovie` rows in the filtered
tags output. -/
theorem caps_enforced (cfg : Config) (parent : String) :
    (∀ capR, cfg.maxRatingsPerUser = some capR →
      ∀ ratings out counts,
        build_filtered_ratings cfg parent ratings = .ok (out, counts) →
        ∀ u, out.countP (fun r => pyInt r.userId == some u) ≤ capR) ∧
    (∀ capT, cfg.maxTagsPerMovie = some capT →
      ∀ allowed tags out counts,
        build_tags_filtered cfg parent tags allowed = .ok (out, counts) →
        ∀ m, out.countP (fun r => pyInt r.movieId == some m) ≤ capT) := by
  constructor
  · intro capR hcap ratings out counts h u
    rw [build_filtered_ratings] at h
    cases h1 : ensure_file_with_columns "ratings.csv" parent ratings
        ["userId", "movieId", "rating", "timestamp"] with
    | error e => rw [h1] at h; exact Except.noConfusion h
    | ok v =>
      rw [h1] at h
      have := filterRatingsRows_countP_le cfg capR hcap u
        ((ratings.map CsvSource.rows).getD []) (fun _ => 0) out counts h
      simpa using this
  · intro capT hcap allowed tags out counts h m
    rw [build_tags_filtered] at h
    cases h1 : ensure_file_with_columns "tags.csv" parent tags
        ["userId", "movieId", "tag", "timestamp"] with
    | error e => rw [h1] at h; exact Except.noConfusion h
    | ok v =>
      rw [h1] at h
      have := filterTagsRows_countP_le cfg capT allowed hcap m
        ((tags.map CsvSource.rows).getD []) (fun _ => 0) out counts h
      simpa using this

theorem caps_enforced_check :
    build_filtered_ratings ⟨1, some 400, some 30, some 1, true⟩ "/base"
        (some ⟨some ["userId", "movieId", "rating", "timestamp"],
          [⟨"1", "10", "4.0", "100"⟩, ⟨"1", "20", "3.5", "101"⟩,
           ⟨"2", "10", "5.0", "102"⟩]⟩) =
      .ok ([⟨"1", "10", "4.0", "100"⟩], bump (bump (fun _ => 0) 1) 1) ∧
    ([⟨"1", "10", "4.0", "100"⟩] : List RatingRow).countP
      (fun r => pyInt r.userId == some 1) ≤ 1 :=
  ⟨rfl,
   (caps_enforced ⟨1, some 400, some 30, some 1, true⟩ "/base").1 1 rfl
     (some ⟨some ["userId", "movieId", "rating", "timestamp"],
       [⟨"1", "10", "4.0", "100"⟩, ⟨"1", "20", "3.5", "101"⟩,
        ⟨"2", "10", "5.0", "102"⟩]⟩)
     [⟨"1", "10", "4.0", "100"⟩] (bump (bump (fun _ => 0) 1) 1) rfl 1⟩

theorem filterRatingsRows_counts_eq (cfg : Config) (rows : List RatingRow) :
    ∀ (counts : Nat → Nat) (out : List RatingRow) (counts' : Nat → Nat),
    filterRatingsRows cfg rows counts = .ok (out, counts') →
    ∀ u, counts' u = counts u +
      (rows.takeWhile (withinLimit cfg)).countP
        (fun r => pyInt r.userId == some u) := by
  induction rows with
  | nil =>
    intro counts out counts' h u
    simp only [filterRatingsRows, Except.ok.injEq, Prod.mk.injEq] at h
    rw [← h.2]
    simp
  | cons r rs ih =>
    intro counts out counts' h u
    rw [filterRatingsRows] at h
    cases hm : pyInt r.userId with
    | none => rw [hm] at h; exact Except.noConfusion h
    | some v =>
      rw [hm] at h
      by_cases hv : v > cfg.maxUsers
      · simp only [hv, if_true, Except.ok.injEq, Prod.mk.injEq] at h
        rw [← h.2]
        have hw : withinLimit cfg r = false := by
          simp only [withinLimit, hm, decide_eq_false_iff_not]
          omega
        simp [List.takeWhile_cons, hw]
      · simp only [hv, if_false] at h
        have hw : withinLimit cfg r = true := by
          simp only [withinLimit, hm, decide_eq_true_eq]
          omega
        have key : ∃ out₂, filterRatingsRows cfg rs (bump counts v) =
            .ok (out₂, counts') := by
          cases hcap : cfg.maxRatingsPerUser with
          | none =>
            rw [hcap] at h
            cases h2 : filterRatingsRows cfg rs (bump counts v) with
            | error e => rw [h2] at h; exact Except.noConfusion h
            | ok p =>
              obtain ⟨o2, c2⟩ := p
              rw [h2] at h
              simp only [Except.map, Except.ok.injEq, Prod.mk.injEq] at h
              rw [← h.2]
              exact ⟨o2, rfl⟩
          | some cap =>
            rw [hcap] at h
            by_cases hskip : bump counts v v > cap
            · simp only [hskip, if_true] at h
              exact ⟨out, h⟩
            · simp only [hskip, if_false] at h
              cases h2 : filterRatingsRows cfg rs (bump counts v) with
              | error e => rw [h2] at h; exact Except.noConfusion h
              | ok p =>
                obtain ⟨o2, c2⟩ := p
                rw [h2] at h
                simp only [Except.map, Except.ok.injEq, Prod.mk.injEq] at h
                rw [← h.2]
                exact ⟨o2, rfl⟩
        obtain ⟨out₂, h2⟩ := key
        have hrec := ih (bump counts v) out₂ counts' h2 u
        rw [hrec]
        have ht : (r :: rs).takeWhile (withinLimit cfg) =
            r :: rs.takeWhile (withinLimit cfg) := by
          simp [List.takeWhile_cons, hw]
        rw [ht, List.countP_cons]
        have hb : bump counts v u = if u = v then counts u + 1 else counts u := by
          simp [bump]
        rw [hb]
        by_cases huv : u = v
        · have hone : ((pyInt r.userId == some u) : Bool) = true := by
            subst huv
            simp [hm]
          rw [hone, if_pos huv]
          simp
          omega
        · have hvm : v ≠ u := fun hc => huv hc.symm
          have hone : ((pyInt r.userId == some u) : Bool) = false := by
            rw [hm]
            simp [hvm]
          rw [hone, if_neg huv]
          simp

theorem filterTagsRows_counts_eq (cfg : Config) (allowed : List Nat)
    (rows : List TagRow) :
    ∀ (counts : Nat → Nat) (out : List TagRow) (counts' : Nat → Nat),
    filterTagsRows cfg allowed rows counts = .ok (out, counts') →
    ∀ m, counts' m = counts m +
      rows.countP (fun r => pyInt r.movieId == some m && decide (m ∈ allowed)) := by
  induction rows with
  | nil =>
    intro counts out counts' h m
    simp only [filterTagsRows, Except.ok.injEq, Prod.mk.injEq] at h
    rw [← h.2]
    simp
  | cons r rs ih =>
    intro counts out counts' h m
    rw [filterTagsRows] at h
    cases hm : pyInt r.movieId with
    | none => rw [hm] at h; exact Except.noConfusion h
    | some v =>
      rw [hm] at h
      by_cases hmem : v ∉ allowed
      · simp only [hmem, not_false_eq_true, if_true] at h
        have hrec := ih counts out counts' h m
        rw [hrec, List.countP_cons]
        have hfalse : ((pyInt r.movieId == some m && decide (m ∈ allowed)) : Bool)
            = false := by
          rw [hm]
          by_cases huv : m = v
          · subst huv
            simp [hmem]
          · have hvm : v ≠ m := fun hc => huv hc.symm
            simp [hvm]
        rw [hfalse]
        simp
      · push_neg at hmem
        simp only [hmem, not_true_eq_false, if_false] at h
        have key : ∃ out₂, filterTagsRows cfg allowed rs (bump counts v) =
            .ok (out₂, counts') := by
          cases hcap : cfg.maxTagsPerMovie with
          | none =>
            rw [hcap] at h
            cases h2 : filterTagsRows cfg allowed rs (bump counts v) with
            | error e => rw [h2] at h; exact Except.noConfusion h
            | ok p =>
              obtain ⟨o2, c2⟩ := p
              rw [h2] at h
              simp only [Except.map, Except.ok.injEq, Prod.mk.injEq] at h
              rw [← h.2]
              exact ⟨o2, rfl⟩
          | some cap =>
            rw [hcap] at h
            by_cases hskip : bump counts v v > cap
            · simp only [hskip, if_true] at h
              exact ⟨out, h⟩
            · simp only [hskip, if_false] at h
              cases h2 : filterTagsRows cfg allowed rs (bump counts v) with
              | error e => rw [h2] at h; exact Except.noConfusion h
              | ok p =>
                obtain ⟨o2, c2⟩ := p
                rw [h2] at h
                simp only [Except.map, Except.ok.injEq, Prod.mk.injEq] at h
                rw [← h.2]
                exact ⟨o2, rfl⟩
        obtain ⟨out₂, h2⟩ := key
        have hrec := ih (bump counts v) out₂ counts' h2 m
        rw [hrec, List.countP_cons]
        have hb : bump counts v m = if m = v then counts m + 1 else counts m := by
          simp [bump]
        rw [hb]
        by_cases huv : m = v
        · have hone : ((pyInt r.movieId == some m && decide (m ∈ allowed)) : Bool)
              = true := by
            subst huv
            simp [hm, hmem]
          rw [hone, if_pos huv]
          simp
          omega
        · have hvm : v ≠ m := fun hc => huv hc.symm
          have hone : ((pyInt r.movieId == some m && decide (m ∈ allowed)) : Bool)
              = false := by
            rw [hm]
            simp [hvm]
          rw [hone, if_neg huv]
          simp

theorem filterRatingsRows_counts_eq_sorted (cfg : Config) (rows : List RatingRow) :
    ∀ (counts : Nat → Nat) (out : List RatingRow) (counts' : Nat → Nat),
    filterRatingsRows cfg rows counts = .ok (out, counts') →
    List.Pairwise (fun a b => ∀ x y, pyInt a.userId = some x →
      pyInt b.userId = some y → x ≤ y) rows →
    (∀ r ∈ rows, (pyInt r.userId).isSome) →
    ∀ u, u ≤ cfg.maxUsers →
    counts' u = counts u + rows.countP (fun r => pyInt r.userId == some u) := by
  induction rows with
  | nil =>
    intro counts out counts' h _ _ u _
    simp only [filterRatingsRows, Except.ok.injEq, Prod.mk.injEq] at h
    rw [← h.2]
    simp
  | cons r rs ih =>
    intro counts out counts' h hsort hparse u hu
    rw [filterRatingsRows] at h
    cases hm : pyInt r.userId with
    | none => rw [hm] at h; exact Except.noConfusion h
    | some v =>
      rw [hm] at h
      by_cases hv : v > cfg.maxUsers
      · simp only [hv, if_true, Except.ok.injEq, Prod.mk.injEq] at h
        rw [← h.2]
        have hr0 : ((pyInt r.userId == some u) : Bool) = false := by
          rw [hm]
          have : v ≠ u := by omega
          simp [this]
        have hrs0 : rs.countP (fun r => pyInt r.userId == some u) = 0 := by
          rw [List.countP_eq_zero]
          intro a ha
          obtain ⟨w, hw⟩ : ∃ w, pyInt a.userId = some w :=
            Option.isSome_iff_exists.mp (hparse a (List.mem_cons_of_mem r ha))
          have hvw : v ≤ w := (List.pairwise_cons.mp hsort).1 a ha v w hm hw
          simp only [hw, beq_iff_eq, Option.some.injEq]
          omega
        rw [List.countP_cons, hr0, hrs0]
        simp
      · simp only [hv, if_false] at h
        have key : ∃ out₂, filterRatingsRows cfg rs (bump counts v) =
            .ok (out₂, counts') := by
          cases hcap : cfg.maxRatingsPerUser with
          | none =>
            rw [hcap] at h
            cases h2 : filterRatingsRows cfg rs (bump counts v) with
            | error e => rw [h2] at h; exact Except.noConfusion h
            | ok p =>
              obtain ⟨o2, c2⟩ := p
              rw [h2] at h
              simp only [Except.map, Except.ok.injEq, Prod.mk.injEq] at h
              rw [← h.2]
              exact ⟨o2, rfl⟩
          | some cap =>
            rw [hcap] at h
            by_cases hskip : bump counts v v > cap
            · simp only [hskip, if_true] at h
              exact ⟨out, h⟩
            · simp only [hskip, if_false] at h
              cases h2 : filterRatingsRows cfg rs (bump counts v) with
              | error e => rw [h2] at h; exact Except.noConfusion h
              | ok p =>
                obtain ⟨o2, c2⟩ := p
                rw [h2] at h
                simp only [Except.map, Except.ok.injEq, Prod.mk.injEq] at h
                rw [← h.2]
                exact ⟨o2, rfl⟩
        obtain ⟨out₂, h2⟩ := key
        have hrec := ih (bump counts v) out₂ counts' h2
          (List.pairwise_cons.mp hsort).2
          (fun a ha => hparse a (List.mem_cons_of_mem r ha)) u hu
        rw [hrec, List.countP_cons]
        have hb : bump counts v u = if u = v then counts u + 1 else counts u := by
          simp [bump]
        rw [hb]
        by_cases huv : u = v
        · have hone : ((pyInt r.userId == some u) : Bool) = true := by
            subst huv
            simp [hm]
          rw [hone, if_pos huv]
          simp
          omega
        · have hvm : v ≠ u := fun hc => huv hc.symm
          have hone : ((pyInt r.userId == some u) : Bool) = false := by
            rw [hm]
            simp [hvm]
          rw [hone, if_neg huv]
          simp

/-- C6: the two per-key counters count different populations. In
`build_tags_filtered` a row whose movieId is outside the allowed set never
increments that movie\x27s counter (a movie outside the set ends with counter
0, and one inside ends with the count of every row carrying it, whether or
not the cap then dropped the row); in `build_filtered_ratings` every
processed row whose userId is at or below the cutoff increments that
user\x27s counter regardless of the per-user cap — over the prefix the loop
scans in general, and over every row of the file when the file satisfies
the documented sorted-by-userId invariant. -/
theorem counter_discipline (cfg : Config) (parent : String) :
    (∀ allowed tags out counts,
      build_tags_filtered cfg parent tags allowed = .ok (out, counts) →
      ∀ m, (m ∉ allowed → counts m = 0) ∧
        (m ∈ allowed → counts m = ((tags.map CsvSource.rows).getD []).countP
          (fun r => pyInt r.movieId == some m))) ∧
    (∀ ratings out counts,
      build_filtered_ratings cfg parent ratings = .ok (out, counts) →
      ∀ u, counts u = (((ratings.map CsvSource.rows).getD []).takeWhile
        (withinLimit cfg)).countP (fun r => pyInt r.userId == some u)) ∧
    (∀ ratings out counts,
      build_filtered_ratings cfg parent ratings = .ok (out, counts) →
      List.Pairwise (fun a b => ∀ x y, pyInt a.userId = some x →
        pyInt b.userId = some y → x ≤ y) ((ratings.map CsvSource.rows).getD []) →
      (∀ r ∈ (ratings.map CsvSource.rows).getD [], (pyInt r.userId).isSome) →
      ∀ u, u ≤ cfg.maxUsers →
      counts u = ((ratings.map CsvSource.rows).getD []).countP
        (fun r => pyInt r.userId == some u)) := by
  refine ⟨fun allowed tags out counts h m => ?_,
    fun ratings out counts h u => ?_,
    fun ratings out counts h hsort hparse u hu => ?_⟩
  · rw [build_tags_filtered] at h
    cases h1 : ensure_file_with_columns "tags.csv" parent tags
        ["userId", "movieId", "tag", "timestamp"] with
    | error e => rw [h1] at h; exact Except.noConfusion h
    | ok v =>
      rw [h1] at h
      have hkey := filterTagsRows_counts_eq cfg allowed
        ((tags.map CsvSource.rows).getD []) (fun _ => 0) out counts h m
      constructor
      · intro hm
        rw [hkey]
        have hz : ((tags.map CsvSource.rows).getD []).countP
            (fun r => pyInt r.movieId == some m && decide (m ∈ allowed)) = 0 := by
          rw [List.countP_eq_zero]
          intro a _
          simp [hm]
        rw [hz]
      · intro hm
        rw [hkey]
        have hc : ((tags.map CsvSource.rows).getD []).countP
            (fun r => pyInt r.movieId == some m && decide (m ∈ allowed)) =
            ((tags.map CsvSource.rows).getD []).countP
            (fun r => pyInt r.movieId == some m) := by
          apply List.countP_congr
          intro a _
          simp [hm]
        rw [hc]
        simp
  · rw [build_filtered_ratings] at h
    cases h1 : ensure_file_with_columns "ratings.csv" parent ratings
        ["userId", "movieId", "rating", "timestamp"] with
    | error e => rw [h1] at h; exact Except.noConfusion h
    | ok v =>
      rw [h1] at h
      have hkey := filterRatingsRows_counts_eq cfg
        ((ratings.map CsvSource.rows).getD []) (fun _ => 0) out counts h u
      simpa using hkey
  · rw [build_filtered_ratings] at h
    cases h1 : ensure_file_with_columns "ratings.csv" parent ratings
        ["userId", "movieId", "rating", "timestamp"] with
    | error e => rw [h1] at h; exact Except.noConfusion h
    | ok v =>
      rw [h1] at h
      have hkey := filterRatingsRows_counts_eq_sorted cfg
        ((ratings.map CsvSource.rows).getD []) (fun _ => 0) out counts h
        hsort hparse u hu
      simpa using hkey

theorem counter_discipline_check :
    bump (bump (fun _ => 0) 1) 1 1 =
      ([⟨"9", "2", some "x", "50"⟩, ⟨"9", "1", some "café", "60"⟩,
        ⟨"9", "2", some "y", "70"⟩, ⟨"9", "1", some "good", "80"⟩] : List TagRow).countP
        (fun r => pyInt r.movieId == some 1) ∧
    bump (bump (fun _ => 0) 1) 1 2 = 0 ∧
    bump (bump (fun _ => 0) 1) 1 1 =
      ([⟨"1", "10", "4.0", "100"⟩, ⟨"1", "20", "3.5", "101"⟩] : List RatingRow).countP
        (fun r => pyInt r.userId == some 1) := by
  refine ⟨?_, ?_, ?_⟩
  · exact ((counter_discipline ⟨50, some 400, some 1, some 200, true⟩ "/base").1
      [1]
      (some ⟨some ["userId", "movieId", "tag", "timestamp"],
        [⟨"9", "2", some "x", "50"⟩, ⟨"9", "1", some "café", "60"⟩,
         ⟨"9", "2", some "y", "70"⟩, ⟨"9", "1", some "good", "80"⟩]⟩)
      [⟨"9", "1", some (sanitize_ascii ⟨50, some 400, some 1, some 200, true⟩
        (some "café")), "60"⟩]
      (bump (bump (fun _ => 0) 1) 1) rfl 1).2 (by simp)
  · exact ((counter_discipline ⟨50, some 400, some 1, some 200, true⟩ "/base").1
      [1]
      (some ⟨some ["userId", "movieId", "tag", "timestamp"],
        [⟨"9", "2", some "x", "50"⟩, ⟨"9", "1", some "café", "60"⟩,
         ⟨"9", "2", some "y", "70"⟩, ⟨"9", "1", some "good", "80"⟩]⟩)
      [⟨"9", "1", some (sanitize_ascii ⟨50, some 400, some 1, some 200, true⟩
        (some "café")), "60"⟩]
      (bump (bump (fun _ => 0) 1) 1) rfl 2).1 (by simp)
  · exact (counter_discipline ⟨1, some 400, some 30, some 1, true⟩ "/base").2.2
      (some ⟨some ["userId", "movieId", "rating", "timestamp"],
        [⟨"1", "10", "4.0", "100"⟩, ⟨"1", "20", "3.5", "101"⟩]⟩)
      [⟨"1", "10", "4.0", "100"⟩]
      (bump (bump (fun _ => 0) 1) 1) rfl
      (by
        refine List.Pairwise.cons ?_ (List.Pairwise.cons ?_ List.Pairwise.nil)
        · intro b hb x y hx hy
          have hb' : b = (⟨"1", "20", "3.5", "101"⟩ : RatingRow) := by
            simpa using hb
          subst hb'
          have hx1 : (1 : Nat) = x :=
            Option.some.inj ((show pyInt "1" = some 1 from rfl).symm.trans hx)
          have hy1 : (1 : Nat) = y :=
            Option.some.inj ((show pyInt "1" = some 1 from rfl).symm.trans hy)
          omega
        · intro b hb
          exact absurd hb (List.not_mem_nil b))
      (by decide) 1 (Nat.le_refl 1)

theorem filterRatingsRows_break (cfg : Config) (r₀ : RatingRow) (v₀ : Nat)
    (h₀ : pyInt r₀.userId = some v₀) (hgt : v₀ > cfg.maxUsers) :
    ∀ (l₁ l₂ : List RatingRow) (counts : Nat → Nat),
    (∀ r ∈ l₁, ∃ v, pyInt r.userId = some v ∧ v ≤ cfg.maxUsers) →
    filterRatingsRows cfg (l₁ ++ r₀ :: l₂) counts =
      filterRatingsRows cfg l₁ counts := by
  intro l₁
  induction l₁ with
  | nil =>
    intro l₂ counts _
    simp [filterRatingsRows, h₀, hgt]
  | cons r rs ih =>
    intro l₂ counts h₁
    obtain ⟨v, hv, hvle⟩ := h₁ r (List.mem_cons_self r rs)
    have hnotgt : ¬ v > cfg.maxUsers := by omega
    simp only [List.cons_append, filterRatingsRows]
    rw [hv]
    simp only [hnotgt, if_false]
    have ih' : ∀ c : Nat → Nat, filterRatingsRows cfg (rs.append (r₀ :: l₂)) c =
        filterRatingsRows cfg rs c := fun c => ih l₂ c
      (fun a ha => h₁ a (List.mem_cons_of_mem r ha))
    cases hcap : cfg.maxRatingsPerUser with
    | none =>
      exact congrArg (Except.map fun p => (r :: p.1, p.2)) (ih' (bump counts v))
    | some cap =>
      by_cases hskip : bump counts v v > cap
      · simp only [hskip, if_true]
        exact ih' (bump counts v)
      · simp only [hskip, if_false]
        exact congrArg (Except.map fun p => (r :: p.1, p.2)) (ih' (bump counts v))

theorem filterRatingsRows_sublist (cfg : Config) (rows : List RatingRow) :
    ∀ (counts : Nat → Nat) (out : List RatingRow) (counts' : Nat → Nat),
    filterRatingsRows cfg rows counts = .ok (out, counts') →
    out.Sublist rows := by
  induction rows with
  | nil =>
    intro counts out counts' h
    simp only [filterRatingsRows, Except.ok.injEq, Prod.mk.injEq] at h
    rw [← h.1]
  | cons r rs ih =>
    intro counts out counts' h
    rw [filterRatingsRows] at h
    cases hm : pyInt r.userId with
    | none => rw [hm] at h; exact Except.noConfusion h
    | some v =>
      rw [hm] at h
      by_cases hv : v > cfg.maxUsers
      · simp only [hv, if_true, Except.ok.injEq, Prod.mk.injEq] at h
        rw [← h.1]
        exact List.nil_sublist _
      · simp only [hv, if_false] at h
        cases hcap : cfg.maxRatingsPerUser with
        | none =>
          rw [hcap] at h
          cases h2 : filterRatingsRows cfg rs (bump counts v) with
          | error e => rw [h2] at h; exact Except.noConfusion h
          | ok p =>
            rw [h2] at h
            simp only [Except.map, Except.ok.injEq, Prod.mk.injEq] at h
            rw [← h.1]
            exact List.Sublist.cons₂ r (ih (bump counts v) p.1 p.2 h2)
        | some cap =>
          rw [hcap] at h
          by_cases hskip : bump counts v v > cap
          · simp only [hskip, if_true] at h
            exact List.Sublist.cons r (ih (bump counts v) out counts' h)
          · simp only [hskip, if_false] at h
            cases h2 : filterRatingsRows cfg rs (bump counts v) with
            | error e => rw [h2] at h; exact Except.noConfusion h
            | ok p =>
              rw [h2] at h
              simp only [Except.map, Except.ok.injEq, Prod.mk.injEq] at h
              rw [← h.1]
              exact List.Sublist.cons₂ r (ih (bump counts v) p.1 p.2 h2)

/-- C9: if every row of a prefix `l₁` is within the user cutoff and the next
row `r₀` exceeds it, `build_filtered_ratings` produces the same result as if
the input ended after `l₁`: nothing at or after the first over-limit row is
ever emitted, even rows of `l₂` whose own userId is within the cutoff. -/
theorem ratings_break_discards_suffix (cfg : Config) (parent : String)
    (fieldnames : Option (List String)) (l₁ l₂ : List RatingRow)
    (r₀ : RatingRow) (v₀ : Nat)
    (h₁ : ∀ r ∈ l₁, ∃ v, pyInt r.userId = some v ∧ v ≤ cfg.maxUsers)
    (h₀ : pyInt r₀.userId = some v₀) (hgt : v₀ > cfg.maxUsers) :
    build_filtered_ratings cfg parent (some ⟨fieldnames, l₁ ++ r₀ :: l₂⟩) =
      build_filtered_ratings cfg parent (some ⟨fieldnames, l₁⟩) ∧
    (∀ out counts,
      build_filtered_ratings cfg parent (some ⟨fieldnames, l₁ ++ r₀ :: l₂⟩) =
        .ok (out, counts) → ∀ r ∈ out, r ∈ l₁) := by
  have he : ensure_file_with_columns "ratings.csv" parent
      (some ⟨fieldnames, l₁ ++ r₀ :: l₂⟩)
      ["userId", "movieId", "rating", "timestamp"] =
      ensure_file_with_columns "ratings.csv" parent (some ⟨fieldnames, l₁⟩)
      ["userId", "movieId", "rating", "timestamp"] := rfl
  have hmain : build_filtered_ratings cfg parent
      (some ⟨fieldnames, l₁ ++ r₀ :: l₂⟩) =
      build_filtered_ratings cfg parent (some ⟨fieldnames, l₁⟩) := by
    rw [build_filtered_ratings, build_filtered_ratings, he]
    cases hens : ensure_file_with_columns "ratings.csv" parent
        (some ⟨fieldnames, l₁⟩) ["userId", "movieId", "rating", "timestamp"] with
    | error e => rfl
    | ok u =>
      show filterRatingsRows cfg (l₁ ++ r₀ :: l₂) (fun _ => 0) =
        filterRatingsRows cfg l₁ (fun _ => 0)
      exact filterRatingsRows_break cfg r₀ v₀ h₀ hgt l₁ l₂ (fun _ => 0) h₁
  refine ⟨hmain, fun out counts h r hr => ?_⟩
  rw [hmain, build_filtered_ratings] at h
  cases hens : ensure_file_with_columns "ratings.csv" parent
      (some ⟨fieldnames, l₁⟩) ["userId", "movieId", "rating", "timestamp"] with
  | error e => rw [hens] at h; exact Except.noConfusion h
  | ok u =>
    rw [hens] at h
    have hsub : out.Sublist l₁ :=
      filterRatingsRows_sublist cfg l₁ (fun _ => 0) out counts h
    exact hsub.subset hr

theorem ratings_break_discards_suffix_check :
    build_filtered_ratings ⟨1, some 400, some 30, some 200, true⟩ "/base"
      (some ⟨some ["userId", "movieId", "rating", "timestamp"],
        [⟨"1", "10", "4.0", "100"⟩, ⟨"2", "30", "2.0", "105"⟩,
         ⟨"1", "99", "5.0", "110"⟩]⟩) =
    build_filtered_ratings ⟨1, some 400, some 30, some 200, true⟩ "/base"
      (some ⟨some ["userId", "movieId", "rating", "timestamp"],
        [⟨"1", "10", "4.0", "100"⟩]⟩) ∧
    (⟨"1", "10", "4.0", "100"⟩ : RatingRow) ∈
      ([⟨"1", "10", "4.0", "100"⟩] : List RatingRow) := by
  have h := ratings_break_discards_suffix ⟨1, some 400, some 30, some 200, true⟩
    "/base" (some ["userId", "movieId", "rating", "timestamp"])
    [⟨"1", "10", "4.0", "100"⟩] [⟨"1", "99", "5.0", "110"⟩]
    ⟨"2", "30", "2.0", "105"⟩ 2
    (by
      intro r hr
      have hr' : r = (⟨"1", "10", "4.0", "100"⟩ : RatingRow) := by simpa using hr
      subst hr'
      exact ⟨1, rfl, Nat.le_refl 1⟩)
    rfl (by decide)
  exact ⟨h.1, h.2 [⟨"1", "10", "4.0", "100"⟩] (bump (fun _ => 0) 1) rfl
    ⟨"1", "10", "4.0", "100"⟩ (by simp)⟩

theorem loadIdsRows_movies_mem (rows : List RatingRow) :
    ∀ (us ms us' ms' : List Nat),
    loadIdsRows rows us ms = .ok (us', ms') →
    (∀ a, a ∈ ms' ↔ a ∈ ms ∨ ∃ r ∈ rows, pyInt r.movieId = some a) ∧
    (ms.Nodup → ms'.Nodup) := by
  induction rows with
  | nil =>
    intro us ms us' ms' h
    simp only [loadIdsRows, Except.ok.injEq, Prod.mk.injEq] at h
    rw [← h.2]
    constructor
    · intro a
      simp
    · exact id
  | cons r rs ih =>
    intro us ms us' ms' h
    rw [loadIdsRows] at h
    cases hu : pyInt r.userId with
    | none => rw [hu] at h; exact Except.noConfusion h
    | some u =>
      rw [hu] at h
      cases hm : pyInt r.movieId with
      | none => rw [hm] at h; exact Except.noConfusion h
      | some m =>
        rw [hm] at h
        have hih := ih (us.insert u) (ms.insert m) us' ms' h
        constructor
        · intro a
          rw [hih.1 a]
          simp only [List.mem_insert_iff, List.mem_cons]
          constructor
          · rintro ((rfl | hh) | ⟨x, hx, hpx⟩)
            · exact Or.inr ⟨r, Or.inl rfl, hm⟩
            · exact Or.inl hh
            · exact Or.inr ⟨x, Or.inr hx, hpx⟩
          · rintro (hh | ⟨x, rfl | hx, hpx⟩)
            · exact Or.inl (Or.inr hh)
            · exact Or.inl (Or.inl (Option.some.inj (hm.symm.trans hpx)).symm)
            · exact Or.inr ⟨x, hx, hpx⟩
        · intro hnd
          exact hih.2 hnd.insert

theorem sorted_take_lowest (ms : List Nat) (cap : Nat) (_hnd : ms.Nodup)
    (hlen : cap < ms.length) :
    ((List.insertionSort (· ≤ ·) ms).take cap).length = cap ∧
    (∀ a ∈ (List.insertionSort (· ≤ ·) ms).take cap, a ∈ ms) ∧
    (∀ a ∈ (List.insertionSort (· ≤ ·) ms).take cap, ∀ b ∈ ms,
      b ∉ (List.insertionSort (· ≤ ·) ms).take cap → a < b) := by
  have hperm : (List.insertionSort (· ≤ ·) ms).Perm ms :=
    List.perm_insertionSort _ ms
  have hsorted : List.Sorted (· ≤ ·) (List.insertionSort (· ≤ ·) ms) :=
    List.sorted_insertionSort _ ms
  have hlens : (List.insertionSort (· ≤ ·) ms).length = ms.length :=
    hperm.length_eq
  refine ⟨?_, ?_, ?_⟩
  · rw [List.length_take, hlens]
    omega
  · intro a ha
    exact hperm.mem_iff.mp (List.take_subset cap _ ha)
  · intro a ha b hb hnb
    have hbs : b ∈ List.insertionSort (· ≤ ·) ms := hperm.mem_iff.mpr hb
    have hsplit := List.take_append_drop cap (List.insertionSort (· ≤ ·) ms)
    have hbd : b ∈ (List.insertionSort (· ≤ ·) ms).drop cap := by
      rcases List.mem_append.mp (by rw [hsplit]; exact hbs) with h1 | h1
      · exact absurd h1 hnb
      · exact h1
    have hpw : List.Pairwise (· ≤ ·)
        ((List.insertionSort (· ≤ ·) ms).take cap ++
          (List.insertionSort (· ≤ ·) ms).drop cap) := by
      rw [hsplit]
      exact hsorted
    have hle : a ≤ b := (List.pairwise_append.mp hpw).2.2 a ha b hbd
    have hne : a ≠ b := fun hab => hnb (hab ▸ ha)
    omega

/-- C2: when the movie cap is set and the distinct movie ids of the filtered
ratings exceed it, `load_ids_from_filtered_ratings` returns the `cap` lowest
distinct movie ids by ascending numeric sort — the identical list for any
permutation of the input rows — and on the spec scenario (movie universe
{5,3,9,1}, cap 2) it returns exactly [1, 3]. -/
theorem load_ids_cap_lowest_deterministic (cfg : Config) (parent : String)
    (cap : Nat) (f₁ f₂ : CsvSource RatingRow) (us₁ ms₁ us₂ ms₂ : List Nat)
    (hcap : cfg.maxMovies = some cap)
    (hperm : f₁.rows.Perm f₂.rows)
    (h₁ : load_ids_from_filtered_ratings cfg parent (some f₁) = .ok (us₁, ms₁))
    (h₂ : load_ids_from_filtered_ratings cfg parent (some f₂) = .ok (us₂, ms₂))
    (hbig : cap < ((f₁.rows.filterMap (fun r => pyInt r.movieId)).dedup).length) :
    ms₁ = ms₂ ∧
    ms₁.length = cap ∧
    (∀ a ∈ ms₁, a ∈ f₁.rows.filterMap (fun r => pyInt r.movieId)) ∧
    (∀ a ∈ ms₁, ∀ b ∈ f₁.rows.filterMap (fun r => pyInt r.movieId),
      b ∉ ms₁ → a < b) ∧
    load_ids_from_filtered_ratings ⟨50, some 2, some 30, some 200, true⟩ "/base"
      (some ⟨some ["userId", "movieId", "rating", "timestamp"],
        [⟨"1", "5", "4.0", "100"⟩, ⟨"1", "3", "4.0", "101"⟩,
         ⟨"1", "9", "4.0", "102"⟩, ⟨"2", "1", "4.0", "103"⟩]⟩) =
      .ok ([2, 1], [1, 3]) := by
  rw [load_ids_from_filtered_ratings] at h₁ h₂
  cases he₁ : ensure_file_with_columns "filtered_ratings.csv" parent (some f₁)
      ["userId", "movieId", "rating", "timestamp"] with
  | error e => rw [he₁] at h₁; exact Except.noConfusion h₁
  | ok u₁ =>
  rw [he₁] at h₁
  cases he₂ : ensure_file_with_columns "filtered_ratings.csv" parent (some f₂)
      ["userId", "movieId", "rating", "timestamp"] with
  | error e => rw [he₂] at h₂; exact Except.noConfusion h₂
  | ok u₂ =>
  rw [he₂] at h₂
  cases hl₁ : loadIdsRows ((Option.map CsvSource.rows (some f₁)).getD []) [] [] with
  | error e => rw [hl₁] at h₁; exact Except.noConfusion h₁
  | ok p₁ =>
  obtain ⟨usA, msA⟩ := p₁
  rw [hl₁] at h₁
  simp only [Except.ok.injEq, Prod.mk.injEq] at h₁
  cases hl₂ : loadIdsRows ((Option.map CsvSource.rows (some f₂)).getD []) [] [] with
  | error e => rw [hl₂] at h₂; exact Except.noConfusion h₂
  | ok p₂ =>
  obtain ⟨usB, msB⟩ := p₂
  rw [hl₂] at h₂
  simp only [Except.ok.injEq, Prod.mk.injEq] at h₂
  have hl₁' : loadIdsRows f₁.rows [] [] = .ok (usA, msA) := hl₁
  have hl₂' : loadIdsRows f₂.rows [] [] = .ok (usB, msB) := hl₂
  have hA := loadIdsRows_movies_mem f₁.rows [] [] usA msA hl₁'
  have hB := loadIdsRows_movies_mem f₂.rows [] [] usB msB hl₂'
  have hndA : msA.Nodup := hA.2 List.nodup_nil
  have hndB : msB.Nodup := hB.2 List.nodup_nil
  have hmemA : ∀ a, a ∈ msA ↔
      a ∈ f₁.rows.filterMap (fun r => pyInt r.movieId) := by
    intro a
    rw [hA.1 a, List.mem_filterMap]
    simp
  have hmemB : ∀ a, a ∈ msB ↔
      a ∈ f₂.rows.filterMap (fun r => pyInt r.movieId) := by
    intro a
    rw [hB.1 a, List.mem_filterMap]
    simp
  have hpermA : msA.Perm (f₁.rows.filterMap (fun r => pyInt r.movieId)).dedup := by
    rw [List.perm_ext_iff_of_nodup hndA (List.nodup_dedup _)]
    intro a
    rw [hmemA a, List.mem_dedup]
  have hlenA : cap < msA.length := by
    rw [hpermA.length_eq]
    exact hbig
  have hpermAB : msA.Perm msB := by
    rw [List.perm_ext_iff_of_nodup hndA hndB]
    intro a
    rw [hmemA a, hmemB a]
    exact (hperm.filterMap _).mem_iff
  have hlenB : cap < msB.length := by
    rw [← hpermAB.length_eq]
    exact hlenA
  have hsorteq : List.insertionSort (· ≤ ·) msA = List.insertionSort (· ≤ ·) msB :=
    List.eq_of_perm_of_sorted
      ((List.perm_insertionSort _ msA).trans
        (hpermAB.trans (List.perm_insertionSort _ msB).symm))
      (List.sorted_insertionSort _ msA) (List.sorted_insertionSort _ msB)
  have hcapA : capMovieIds cfg msA = (List.insertionSort (· ≤ ·) msA).take cap := by
    unfold capMovieIds
    rw [hcap]
    exact if_pos hlenA
  have hcapB : capMovieIds cfg msB = (List.insertionSort (· ≤ ·) msB).take cap := by
    unfold capMovieIds
    rw [hcap]
    exact if_pos hlenB
  have hms₁ : ms₁ = (List.insertionSort (· ≤ ·) msA).take cap := by
    rw [← h₁.2, hcapA]
  have hms₂ : ms₂ = (List.insertionSort (· ≤ ·) msB).take cap := by
    rw [← h₂.2, hcapB]
  have hlow := sorted_take_lowest msA cap hndA hlenA
  refine ⟨?_, ?_, ?_, ?_, rfl⟩
  · rw [hms₁, hms₂, hsorteq]
  · rw [hms₁]
    exact hlow.1
  · intro a ha
    rw [hms₁] at ha
    exact (hmemA a).mp (hlow.2.1 a ha)
  · intro a ha b hb hnb
    rw [hms₁] at ha hnb
    exact hlow.2.2 a ha b ((hmemA b).mpr hb) hnb

theorem load_ids_cap_lowest_deterministic_check :
    ([1, 3] : List Nat).length = 2 ∧
    (∀ a ∈ ([1, 3] : List Nat),
      ∀ b ∈ ([⟨"1", "5", "4.0", "100"⟩, ⟨"1", "3", "4.0", "101"⟩,
        ⟨"1", "9", "4.0", "102"⟩, ⟨"2", "1", "4.0", "103"⟩] :
          List RatingRow).filterMap (fun r => pyInt r.movieId),
      b ∉ ([1, 3] : List Nat) → a < b) := by
  have h := load_ids_cap_lowest_deterministic
    ⟨50, some 2, some 30, some 200, true⟩ "/base" 2
    ⟨some ["userId", "movieId", "rating", "timestamp"],
      [⟨"1", "5", "4.0", "100"⟩, ⟨"1", "3", "4.0", "101"⟩,
       ⟨"1", "9", "4.0", "102"⟩, ⟨"2", "1", "4.0", "103"⟩]⟩
    ⟨some ["userId", "movieId", "rating", "timestamp"],
      [⟨"1", "3", "4.0", "101"⟩, ⟨"1", "5", "4.0", "100"⟩,
       ⟨"1", "9", "4.0", "102"⟩, ⟨"2", "1", "4.0", "103"⟩]⟩
    [2, 1] [1, 3] [2, 1] [1, 3] rfl
    (List.Perm.swap _ _ _) rfl rfl (by decide)
  exact ⟨h.2.1, h.2.2.2.1⟩

theorem diagnostic_missingSource_names (n p : String) :
    strContains (diagnostic (.missingSource n p)) n = true := by
  have hshape : diagnostic (.missingSource n p) =
      "ERROR: Expected file \x27" ++ n ++
        ("\x27 in \x27" ++ p ++ "\x27, but it was not found.") := by
    simp [diagnostic, String.append_assoc]
  rw [hshape]
  exact strContains_append_self _ n _

theorem diagnostic_missingColumns_names (n : String) (miss found : List String) :
    strContains (diagnostic (.missingColumns n miss found)) n = true ∧
    strContains (diagnostic (.missingColumns n miss found)) (pyListRepr miss) = true ∧
    strContains (diagnostic (.missingColumns n miss found)) (pyListRepr found) = true := by
  refine ⟨?_, ?_, ?_⟩
  · have hshape : diagnostic (.missingColumns n miss found) =
        "ERROR: File \x27" ++ n ++
          ("\x27 is missing required columns: " ++ pyListRepr miss ++
            ". Found columns: " ++ pyListRepr found) := by
      simp [diagnostic, String.append_assoc]
    rw [hshape]
    exact strContains_append_self _ n _
  · have hshape : diagnostic (.missingColumns n miss found) =
        ("ERROR: File \x27" ++ n ++ "\x27 is missing required columns: ") ++
          pyListRepr miss ++ (". Found columns: " ++ pyListRepr found) := by
      simp [diagnostic, String.append_assoc]
    rw [hshape]
    exact strContains_append_self _ (pyListRepr miss) _
  · have hshape : diagnostic (.missingColumns n miss found) =
        ("ERROR: File \x27" ++ n ++ "\x27 is missing required columns: " ++
          pyListRepr miss ++ ". Found columns: ") ++ pyListRepr found ++ "" := by
      rw [diagnostic, String.append_empty]
    rw [hshape]
    exact strContains_append_self _ (pyListRepr found) ""

/-- C7 (amended): every fatal condition aborts the run at the point of
detection with a failure signal, and no output artifact of a later stage is
produced after an abort; the missing-source and missing-columns diagnostics
name the offending artifact, and the missing-columns diagnostic also lists
the missing columns and the columns found; a malformed integer identifier
aborts with a diagnostic that carries only the offending value (it does not
name the artifact). -/
theorem runMain_abort_behavior (cfg : Config) (parent : String) (srcs : Sources) :
    ((runMain cfg parent srcs).2.isSome →
      (runMain cfg parent srcs).1.moviesFiltered = none) ∧
    ((runMain cfg parent srcs).1.linksFiltered.isSome →
      (runMain cfg parent srcs).1.filteredRatings.isSome) ∧
    ((runMain cfg parent srcs).1.tagsFiltered.isSome →
      (runMain cfg parent srcs).1.linksFiltered.isSome) ∧
    ((runMain cfg parent srcs).1.moviesFiltered.isSome →
      (runMain cfg parent srcs).1.tagsFiltered.isSome) ∧
    ((runMain cfg parent srcs).2 = none →
      (runMain cfg parent srcs).1.moviesFiltered.isSome) ∧
    (∀ n p, (runMain cfg parent srcs).2 = some (.missingSource n p) →
      strContains (diagnostic (.missingSource n p)) n = true) ∧
    (∀ n miss found,
      (runMain cfg parent srcs).2 = some (.missingColumns n miss found) →
      strContains (diagnostic (.missingColumns n miss found)) n = true ∧
      strContains (diagnostic (.missingColumns n miss found))
        (pyListRepr miss) = true ∧
      strContains (diagnostic (.missingColumns n miss found))
        (pyListRepr found) = true) ∧
    (∀ value, (runMain cfg parent srcs).2 = some (.malformedField value) →
      diagnostic (.malformedField value) =
        "invalid literal for int() with base 10: \x27" ++ value ++ "\x27") := by
  refine ⟨?_, ?_, ?_, ?_, ?_, ?_, ?_, ?_⟩
  case' refine_6 => intro n p _; exact diagnostic_missingSource_names n p
  case' refine_7 => intro n miss found _; exact diagnostic_missingColumns_names n miss found
  case' refine_8 => intro value _; rfl
  all_goals (
    rw [runMain]
    cases hb : build_filtered_ratings cfg parent srcs.ratings with
    | error e => simp
    | ok pr =>
      obtain ⟨fr, cnt⟩ := pr
      dsimp only
      cases hload : load_ids_from_filtered_ratings cfg parent
          (some ⟨some ["userId", "movieId", "rating", "timestamp"], fr⟩) with
      | error e => simp
      | ok ids =>
        obtain ⟨uids, mids⟩ := ids
        dsimp only
        cases hlinks : build_links_filtered parent srcs.links mids with
        | error e => simp
        | ok lf =>
          dsimp only
          cases htags : build_tags_filtered cfg parent srcs.tags mids with
          | error e => simp
          | ok tp =>
            obtain ⟨tf, tcnt⟩ := tp
            dsimp only
            cases hmov : build_movies_filtered cfg parent srcs.movies mids with
            | error e => simp
            | ok mf => simp)

/-- C7 counterexample: a run aborted by a malformed `userId` terminates with
a failure signal, but its diagnostic — CPython\x27s `ValueError` message —
does not name the offending artifact `ratings.csv`; it does not even contain
the substring "ratings", contradicting the claim that each of the three
fatal errors produces a diagnostic naming the offending artifact. -/
theorem malformed_diagnostic_counterexample :
    runMain defaultConfig "/base"
      ⟨some ⟨some ["userId", "movieId", "rating", "timestamp"],
        [⟨"abc", "1", "4.0", "100"⟩]⟩,
       some ⟨some ["movieId", "imdbId", "tmdbId"], []⟩,
       some ⟨some ["userId", "movieId", "tag", "timestamp"], []⟩,
       some ⟨some ["movieId", "title", "genres"], []⟩⟩ =
      (⟨none, none, none, none⟩, some (.malformedField "abc")) ∧
    strContains (diagnostic (.malformedField "abc")) "ratings" = false ∧
    diagnostic (.malformedField "abc") =
      "invalid literal for int() with base 10: \x27abc\x27" :=
  ⟨rfl, by decide, rfl⟩

theorem runMain_abort_behavior_check :
    strContains (diagnostic (.missingSource "ratings.csv" "/base"))
      "ratings.csv" = true ∧
    (runMain defaultConfig "/base" ⟨none, none, none, none⟩).1.moviesFiltered =
      none :=
  ⟨(runMain_abort_behavior defaultConfig "/base"
      ⟨none, none, none, none⟩).2.2.2.2.2.1 "ratings.csv" "/base" rfl,
   (runMain_abort_behavior defaultConfig "/base" ⟨none, none, none, none⟩).1 rfl⟩
